import Mathlib

/-!
Verification development for the Tribler trust-graph page
(`TriblerGUI/widgets/trustgraphpage.py`).

The Python module has two classes:

* `TrustAnimationCanvas` — renders the graph; its core is
  `compute_node_positions`, the per-frame interpolation of node positions,
  plus `update_canvas` / `draw_graph`.
* `TrustGraphPage` — the polling/animation state machine: timers
  (`schedule_fetch_data_timer`, `on_fetch_data_request_timeout`,
  `stop_fetch_data_request`), fetching (`fetch_graph_data`,
  `on_received_data`), snapshot comparison (`should_update_graph`) and the
  animation tick (`update_graph`).

Python dicts of node positions are embedded as association lists from node
identifier (String) to a rational 2D coordinate; Python floats are embedded
as rationals (all constants in the module are exactly representable).
Stateful methods are embedded as explicit state-passing functions that also
return the list of externally visible effects (timer starts/stops, request
cancel/perform, rendering, label updates); code that can raise
(`KeyError`/`TypeError` on a missing dict key or a `None` map) returns
`Option`, with `none` standing for the raised exception.
-/

/-- A 2D coordinate, as the Python pair of floats `(x, y)`. -/
abbrev Coord : Type := ℚ × ℚ

/-- A Python dict mapping node identifier to coordinate, embedded as an
association list (keys are unique in every map the program builds). -/
abbrev PosMap : Type := List (String × Coord)

/-- A directed edge of the graph: an ordered pair of node identifiers. -/
abbrev Edge : Type := String × String

/-- Dict lookup `m[k]`: the value at the first matching key. -/
def PosMap.lookup : PosMap → String → Option Coord
  | [], _ => none
  | (k, v) :: rest, key => if k = key then some v else PosMap.lookup rest key

/-- Dict membership test `k in m`. -/
def PosMap.containsKey (m : PosMap) (key : String) : Bool :=
  (m.lookup key).isSome

/-- Dict key view `m.keys()`. -/
def PosMap.keys (m : PosMap) : List String := m.map Prod.fst

/-- Dict store `m[k] = v`: replaces the value at an existing key in place,
appends a new entry otherwise (Python dict insertion-order semantics). -/
def PosMap.insert : PosMap → String → Coord → PosMap
  | [], key, v => [(key, v)]
  | (k, w) :: rest, key, v =>
    if k = key then (k, v) :: rest else (k, w) :: PosMap.insert rest key v

theorem PosMap.lookup_insert_self (m : PosMap) (k : String) (v : Coord) :
    (m.insert k v).lookup k = some v := by
  induction m with
  | nil => simp [PosMap.insert, PosMap.lookup]
  | cons hd tl ih =>
    by_cases h : hd.1 = k
    · simp [PosMap.insert, PosMap.lookup, h]
    · simp only [PosMap.insert]
      rw [if_neg h]
      simp only [PosMap.lookup]
      rw [if_neg h]
      exact ih

theorem PosMap.lookup_insert_ne (m : PosMap) (k k' : String) (v : Coord)
    (h : k ≠ k') : (m.insert k v).lookup k' = m.lookup k' := by
  induction m with
  | nil => simp [PosMap.insert, PosMap.lookup, h]
  | cons hd tl ih =>
    by_cases hk : hd.1 = k
    · simp only [PosMap.insert]
      rw [if_pos hk]
      simp only [PosMap.lookup]
      rw [if_neg (hk ▸ h), if_neg (by rw [hk]; exact h)]
    · simp only [PosMap.insert]
      rw [if_neg hk]
      simp only [PosMap.lookup]
      by_cases hk' : hd.1 = k'
      · rw [if_pos hk', if_pos hk']
      · rw [if_neg hk', if_neg hk']
        exact ih

theorem PosMap.containsKey_insert (m : PosMap) (k k' : String) (v : Coord) :
    (m.insert k v).containsKey k' = (k = k' || m.containsKey k') := by
  by_cases h : k = k'
  · subst h
    simp [PosMap.containsKey, PosMap.lookup_insert_self]
  · simp [PosMap.containsKey, PosMap.lookup_insert_ne m k k' v h, h]

theorem PosMap.containsKey_of_mem_keys (m : PosMap) (k : String)
    (h : k ∈ m.keys) : m.containsKey k = true := by
  induction m with
  | nil => simp [PosMap.keys] at h
  | cons hd tl ih =>
    simp only [PosMap.keys, List.map_cons, List.mem_cons] at h
    rcases h with h | h
    · simp [PosMap.containsKey, PosMap.lookup, h]
    · by_cases he : hd.1 = k
      · simp [PosMap.containsKey, PosMap.lookup, he]
      · simpa [PosMap.containsKey, PosMap.lookup, he] using
          ih (by simpa [PosMap.keys] using h)

theorem PosMap.lookup_append_cons (l₁ l₂ : PosMap) (k : String) (v : Coord)
    (h : k ∉ l₁.map Prod.fst) :
    PosMap.lookup (l₁ ++ (k, v) :: l₂) k = some v := by
  induction l₁ with
  | nil => simp [PosMap.lookup]
  | cons hd tl ih =>
    simp only [List.map_cons, List.mem_cons] at h
    push_neg at h
    rw [List.cons_append]
    simp only [PosMap.lookup]
    rw [if_neg (fun he => h.1 he.symm)]
    exact ih h.2

/-!
## `TrustAnimationCanvas.compute_node_positions`

```python
def compute_node_positions(self, graph, target_pos, old_pos, move_fraction):
    actual_pos = {}
    if old_pos is None:
        for n in graph.node:
            actual_pos[n] = ((target_pos[n][0]), (target_pos[n][1]))
    else:
        for n in set(old_pos.keys()).difference(target_pos.keys()):
            old_pos[n] = (1.0, 0.0)
        for n in set(target_pos.keys()).difference(old_pos.keys()):
            target_pos[n] = (0.0, 0.0)
        for n in graph.node:
            if old_pos is not None:
                if n not in target_pos:
                    target_pos[n] = (0.0, 0.0)
                if n not in old_pos:
                    old_pos[n] = (0.0, 1.0)
                actual_pos[n] = ((((target_pos[n][0] - old_pos[n][0]) * move_fraction) + old_pos[n][0]),
                                 (((target_pos[n][1] - old_pos[n][1]) * move_fraction) + old_pos[n][1]))
            else:
                ...  # dead: old_pos is the unreassigned parameter of the else-branch
    return actual_pos
```

The method mutates `target_pos` and `old_pos` in place, so the embedding
returns, with the computed `actual_pos`, the final contents of both input
maps. The `old_pos is None` branch indexes `target_pos[n]` without any
defaulting and raises `KeyError` when a graph node is missing, hence the
`Option` result. The set differences are materialised before their loops
run; each loop writes every key at most once, so iterating the key lists in
order is equivalent to Python's set iteration. -/

/-- The `old_pos is None` branch: `actual_pos[n] = target_pos[n]` for each
graph node, failing (KeyError) on a node missing from `target_pos`. -/
def computeTargetOnly : List String → PosMap → PosMap → Option PosMap
  | [], _, actual => some actual
  | n :: rest, target_pos, actual =>
    match target_pos.lookup n with
    | none => none
    | some c => computeTargetOnly rest target_pos (actual.insert n (c.1, c.2))

/-- One iteration of the `for n in graph.node` loop of the else-branch:
default `target_pos[n]` to `(0.0, 0.0)` and `old_pos[n]` to `(0.0, 1.0)`
when missing, then interpolate, threading the mutated maps. -/
def interpolateStep (move_fraction : ℚ) (st : PosMap × PosMap × PosMap)
    (n : String) : PosMap × PosMap × PosMap :=
  let actual := st.1
  let tp := st.2.1
  let op := st.2.2
  let tp1 := if tp.containsKey n then tp else tp.insert n (0, 0)
  let op1 := if op.containsKey n then op else op.insert n (0, 1)
  let t := (tp1.lookup n).getD (0, 0)
  let o := (op1.lookup n).getD (0, 0)
  (actual.insert n
      ((t.1 - o.1) * move_fraction + o.1, (t.2 - o.2) * move_fraction + o.2),
    tp1, op1)

/-- The first pre-pass loop: for every key of `old_pos` missing from
`target_pos`, overwrite `old_pos[n]` with `(1.0, 0.0)`. -/
def prePassOld (target_pos op0 : PosMap) : PosMap :=
  (op0.keys.filter (fun k => ! target_pos.containsKey k)).foldl
    (fun m k => m.insert k (1, 0)) op0

/-- The second pre-pass loop: for every key of `target_pos` missing from
the (already rewritten) `old_pos`, overwrite `target_pos[n]` with
`(0.0, 0.0)`. -/
def prePassTarget (target_pos op0 : PosMap) : PosMap :=
  (target_pos.keys.filter (fun k => ! (prePassOld target_pos op0).containsKey k)).foldl
    (fun m k => m.insert k (0, 0)) target_pos

/-- `TrustAnimationCanvas.compute_node_positions`. Returns
`(actual_pos, target_pos, old_pos)` — the computed positions together with
the final (possibly mutated) contents of the two caller-supplied maps —
or `none` when the Python code raises. -/
def computeNodePositions (graphNodes : List String) (target_pos : PosMap)
    (old_pos : Option PosMap) (move_fraction : ℚ) :
    Option (PosMap × PosMap × Option PosMap) :=
  match old_pos with
  | none =>
    (computeTargetOnly graphNodes target_pos []).map
      (fun actual => (actual, target_pos, none))
  | some op0 =>
    let op1 := prePassOld target_pos op0
    let tp1 := prePassTarget target_pos op0
    let r := graphNodes.foldl (interpolateStep move_fraction) ([], tp1, op1)
    some (r.1, r.2.1, some r.2.2)

/-!
## `TrustGraphPage.should_update_graph`

```python
def should_update_graph(self, old_pos, new_pos):
    if not old_pos:
        return True
    if len(old_pos.keys()) != len(new_pos.keys()):
        return True
    for node_id in new_pos.keys():
        if node_id not in old_pos:
            return True
        if old_pos[node_id] != new_pos[node_id]:
            return True
    return False
```

`not old_pos` is Python truthiness: it holds both for `None` and for an
empty dict. -/

/-- `TrustGraphPage.should_update_graph`. -/
def should_update_graph (old_pos : Option PosMap) (new_pos : PosMap) : Bool :=
  match old_pos with
  | none => true
  | some op =>
    if op.isEmpty then true
    else if op.keys.length ≠ new_pos.keys.length then true
    else new_pos.keys.any
      (fun k => ! op.containsKey k || decide (op.lookup k ≠ new_pos.lookup k))

/-!
## `TrustGraphPage` — state, effects, timers

```python
REFRESH_INTERVAL_MS = 1000
TIMEOUT_INTERVAL_MS = 5000
MAX_FRAMES = 3
ANIMATION_DURATION = 3000
```

The page owns two single-shot `QTimer`s (fetch delay and fetch timeout), an
optional animation `QTimer`, the two position-map generations, the parsed
graph and the request manager. A timer is embedded as `Option ℕ`: `none`
when stopped, `some d` when armed with delay `d` (ms). The animation timer
is `Option Bool`: `none` before any timer object exists (`__init__` sets it
to Python `None`), `some running` afterwards. `requestsInFlight` counts
outstanding fetch requests of the request manager; `cancel_request`
retires at most one (cancelling when none is outstanding is a no-op).
Externally visible actions of each method are returned as a list of
`Effect`s in program order. -/

def REFRESH_INTERVAL_MS : ℕ := 1000

def TIMEOUT_INTERVAL_MS : ℕ := 5000

def MAX_FRAMES : ℕ := 3

def ANIMATION_DURATION : ℕ := 3000

/-- An externally visible action of a `TrustGraphPage` method. -/
inductive Effect where
  | cancelRequest
  | performRequest (endpoint : String)
  | startFetchTimer (delay : ℕ)
  | startTimeoutTimer (delay : ℕ)
  | stopFetchTimer
  | stopTimeoutTimer
  | startAnimationTimer (interval : ℕ)
  | stopAnimationTimer
  | renderCanvas (frame_count : ℤ) (progress : ℚ)
  | setProgressBarHidden (hidden : Bool)
  | setProgressBarValue (value : ℤ)
  | setStatusText (num_tx : ℤ) (peers : ℕ)
deriving DecidableEq, Repr

/-- A successful fetch payload, already parsed: the node-link graph from
`data['graph_data']` (its node set and its edge list, as
`json_graph.node_link_graph` and `graph.edges()` produce them), plus
`data['positions']`, `data['node_id']`, `data['bootstrap']['progress']`
and `data['num_tx']`. -/
structure Payload where
  graph_nodes : List String
  graph_edges : List Edge
  positions : PosMap
  node_id : String
  bootstrap_progress : ℚ
  num_tx : ℤ
deriving DecidableEq, Repr

/-- The mutable attributes of a `TrustGraphPage` instance. -/
structure TrustGraphPageState where
  fetch_data_timer : Option ℕ
  fetch_data_timeout_timer : Option ℕ
  fetch_data_last_update : ℚ
  requestsInFlight : ℕ
  graph : Option (List String × List Edge)
  edges : Option (List Edge)
  pos : Option PosMap
  old_pos : Option PosMap
  node_id : Option String
  animation_timer : Option Bool
  animation_frame : ℤ
deriving DecidableEq, Repr

/-- The state `__init__` leaves behind: both timers constructed but not
started, no animation timer, no graph data, no request performed yet. -/
def initState : TrustGraphPageState where
  fetch_data_timer := none
  fetch_data_timeout_timer := none
  fetch_data_last_update := 0
  requestsInFlight := 0
  graph := none
  edges := none
  pos := none
  old_pos := none
  node_id := none
  animation_timer := none
  animation_frame := 0

/-!
## `TrustAnimationCanvas.draw_graph` and `update_canvas`

```python
def update_canvas(self, graph, node_id, pos, old_pos, edge_list, frame_count=0, max_frames=20):
    if not graph or not frame_count:
        return
    ...
    move_frame_fraction = 1 - (frame_count - 1) / (1.0 * max_frames)
    current_positions = self.compute_node_positions(graph, pos, old_pos, move_frame_fraction)
    self.draw_graph(node_id, current_positions, edge_list)
```

`draw_graph` looks up the coordinates of every edge endpoint and of the
root node in the computed positions (raising `KeyError` when one is
missing) and plots them; the embedding returns the looked-up drawing data.
`not graph` is truthy both for `None` and for a graph with no nodes. -/

/-- The edge-coordinate lists `x1s/y1s/x2s/y2s` of `draw_graph`, as a list
of coordinate pairs; `none` when an endpoint has no position (KeyError). -/
def edgeCoords (node_positions : PosMap) : List Edge → Option (List (Coord × Coord))
  | [] => some []
  | e :: rest =>
    match node_positions.lookup e.1 with
    | none => none
    | some c1 =>
      match node_positions.lookup e.2 with
      | none => none
      | some c2 => (edgeCoords node_positions rest).map (fun cs => (c1, c2) :: cs)

/-- `TrustAnimationCanvas.draw_graph`: the plotted edge segments and the
root node's coordinate, or `none` when a lookup raises. A `none` root node
(`self.node_id` never set) is not a dict key either, hence also a KeyError. -/
def draw_graph (root_node : Option String) (node_positions : PosMap)
    (edges : List Edge) : Option (List (Coord × Coord) × Coord) :=
  match edgeCoords node_positions edges with
  | none => none
  | some segs =>
    match root_node with
    | none => none
    | some r =>
      match node_positions.lookup r with
      | none => none
      | some c => some (segs, c)

/-- `TrustAnimationCanvas.update_canvas`. Returns the emitted effects and
the final contents of `self.pos` / `self.old_pos` (mutated through the
references `compute_node_positions` received), or `none` when the call
raises. -/
def update_canvas (graph : Option (List String × List Edge))
    (node_id : Option String) (pos : Option PosMap) (old_pos : Option PosMap)
    (edge_list : Option (List Edge)) (frame_count : ℤ) (max_frames : ℕ) :
    Option (List Effect × Option PosMap × Option PosMap) :=
  if (match graph with | none => true | some g => g.1.isEmpty) || frame_count = 0 then
    some ([], pos, old_pos)
  else
    match graph with
    | none => none
    | some g =>
      match pos with
      | none => none
      | some p =>
        match edge_list with
        | none => none
        | some es =>
          let fraction := 1 - ((frame_count : ℚ) - 1) / (max_frames : ℚ)
          match computeNodePositions g.1 p old_pos fraction with
          | none => none
          | some (actual, tp2, op2) =>
            match draw_graph node_id actual es with
            | none => none
            | some _ =>
              some ([Effect.renderCanvas frame_count fraction], some tp2, op2)

/-!
## `TrustGraphPage` methods -/

/-- `TrustGraphPage.schedule_fetch_data_timer(now)`: arm the single-shot
fetch-delay timer with `0` if `now` else `REFRESH_INTERVAL_MS`, and the
single-shot timeout timer with `TIMEOUT_INTERVAL_MS`. -/
def schedule_fetch_data_timer (now : Bool) (s : TrustGraphPageState) :
    TrustGraphPageState × List Effect :=
  let d := if now then 0 else REFRESH_INTERVAL_MS
  ({ s with fetch_data_timer := some d,
            fetch_data_timeout_timer := some TIMEOUT_INTERVAL_MS },
   [Effect.startFetchTimer d, Effect.startTimeoutTimer TIMEOUT_INTERVAL_MS])

/-- `TrustGraphPage.on_fetch_data_request_timeout`: cancel the in-flight
request unconditionally, then `schedule_fetch_data_timer()` with the
default non-immediate delay. -/
def on_fetch_data_request_timeout (s : TrustGraphPageState) :
    TrustGraphPageState × List Effect :=
  let s1 := { s with requestsInFlight := s.requestsInFlight - 1 }
  let r := schedule_fetch_data_timer false s1
  (r.1, Effect.cancelRequest :: r.2)

/-- `TrustGraphPage.stop_fetch_data_request`: stop both fetch timers, and
stop the animation timer if a timer object exists (`if self.animation_timer:`
— a `QTimer` instance is always truthy, so the guard is a `None` test).
The in-flight request is left alone. -/
def stop_fetch_data_request (s : TrustGraphPageState) :
    TrustGraphPageState × List Effect :=
  ({ s with fetch_data_timer := none,
            fetch_data_timeout_timer := none,
            animation_timer := s.animation_timer.map (fun _ => false) },
   [Effect.stopFetchTimer, Effect.stopTimeoutTimer] ++
     (if s.animation_timer.isSome then [Effect.stopAnimationTimer] else []))

/-- `TrustGraphPage.fetch_graph_data`, at wall-clock time `now` (seconds):
when more than `REFRESH_INTERVAL_MS / 1000` seconds passed since the last
attempt, record the attempt time, cancel the previous request and perform a
new `"trustview"` request on a fresh request manager. -/
def fetch_graph_data (now : ℚ) (s : TrustGraphPageState) :
    TrustGraphPageState × List Effect :=
  if now - s.fetch_data_last_update > (REFRESH_INTERVAL_MS : ℚ) / 1000 then
    ({ s with fetch_data_last_update := now,
              requestsInFlight := s.requestsInFlight - 1 + 1 },
     [Effect.cancelRequest, Effect.performRequest "trustview"])
  else (s, [])

/-- Python `int()` applied to a rational: truncation toward zero. -/
def pyInt (q : ℚ) : ℤ := q.num / (q.den : ℤ)

/-- `TrustGraphPage.update_gui_labels`: hide the bootstrap progress bar at
100%, otherwise show it with the truncated percentage; then set the status
line from `num_tx` and the number of peers (`len(data['positions'])`). -/
def update_gui_labels (d : Payload) : List Effect :=
  let bootstrap_progress := pyInt (d.bootstrap_progress * 100)
  (if bootstrap_progress = 100 then [Effect.setProgressBarHidden true]
   else [Effect.setProgressBarHidden false,
         Effect.setProgressBarValue bootstrap_progress]) ++
  [Effect.setStatusText d.num_tx d.positions.length]

/-- `TrustGraphPage.on_received_data`: a `None` payload returns at once;
otherwise update the GUI labels, replace the graph snapshot
(`old_pos` becomes a copy of the previous `pos`), and when
`should_update_graph` reports a change, arm the animation:
`animation_frame = MAX_FRAMES` and a repeating timer with interval
`ANIMATION_DURATION / MAX_FRAMES`, first tick immediate. -/
def on_received_data (data : Option Payload) (s : TrustGraphPageState) :
    TrustGraphPageState × List Effect :=
  match data with
  | none => (s, [])
  | some d =>
    let labelEffs := update_gui_labels d
    let old := match s.pos with
      | none => none
      | some p => some p
    let s1 := { s with graph := some (d.graph_nodes, d.graph_edges),
                       old_pos := old,
                       pos := some d.positions,
                       edges := some d.graph_edges,
                       node_id := some d.node_id }
    if ¬ should_update_graph old d.positions then (s1, labelEffs)
    else
      ({ s1 with animation_frame := (MAX_FRAMES : ℤ),
                 animation_timer := some true },
       labelEffs ++ [Effect.startAnimationTimer (ANIMATION_DURATION / MAX_FRAMES)])

/-- `TrustGraphPage.update_graph` (one animation tick): decrement
`animation_frame`; while it is nonzero (Python truthiness) render a frame
via `update_canvas`, else stop the animation timer and reschedule the
fetch timer with the default non-immediate delay. -/
def update_graph (s : TrustGraphPageState) : Option (TrustGraphPageState × List Effect) :=
  let f := s.animation_frame - 1
  let s1 := { s with animation_frame := f }
  if f ≠ 0 then
    (update_canvas s1.graph s1.node_id s1.pos s1.old_pos s1.edges f MAX_FRAMES).map
      (fun r => ({ s1 with pos := r.2.1, old_pos := r.2.2 }, r.1))
  else
    let s2 := { s1 with animation_timer := some false }
    let r := schedule_fetch_data_timer false s2
    some (r.1, Effect.stopAnimationTimer :: r.2)

/-!
## The event loop

Qt delivers timer and network callbacks on one event loop; each callback
runs one of the methods above. `dataReceived` is the completion of the
outstanding request, which retires it from flight before the handler runs
(`TriblerRequestManager` invokes `on_received_data` as the request's
callback). -/

/-- One event-loop callback. -/
inductive PageEvent where
  | showEvent
  | hideEvent
  | fetchTimerFires (now : ℚ)
  | timeoutTimerFires
  | animationTick
  | dataReceived (data : Option Payload)

/-- The transition each callback performs: `showEvent` starts an immediate
fetch cycle, `hideEvent` stops it, the three timers run their connected
slots, and a completed request runs `on_received_data`. -/
def step : PageEvent → TrustGraphPageState → Option (TrustGraphPageState × List Effect)
  | PageEvent.showEvent, s => some (schedule_fetch_data_timer true s)
  | PageEvent.hideEvent, s => some (stop_fetch_data_request s)
  | PageEvent.fetchTimerFires now, s => some (fetch_graph_data now s)
  | PageEvent.timeoutTimerFires, s => some (on_fetch_data_request_timeout s)
  | PageEvent.animationTick, s => update_graph s
  | PageEvent.dataReceived d, s =>
      some (on_received_data d { s with requestsInFlight := s.requestsInFlight - 1 })

/-- The states the page can be in: `initState` and everything any sequence
of callbacks leads to. -/
inductive Reachable : TrustGraphPageState → Prop where
  | init : Reachable initState
  | next {s s' : TrustGraphPageState} {e : PageEvent} {effs : List Effect} :
      Reachable s → step e s = some (s', effs) → Reachable s'

/-- Run `n` consecutive animation ticks, collecting each tick's effects. -/
def runTicks : ℕ → TrustGraphPageState → Option (TrustGraphPageState × List (List Effect))
  | 0, s => some (s, [])
  | n + 1, s =>
    match update_graph s with
    | none => none
    | some (s1, effs) =>
      match runTicks n s1 with
      | none => none
      | some (s2, rest) => some (s2, effs :: rest)

/-- Scans an effect list left to right: `true` unless a `performRequest`
occurs with no `cancelRequest` before it (the accumulator records whether a
cancel has been seen). -/
def cancelPrecedes : Bool → List Effect → Bool
  | _, [] => true
  | seen, Effect.performRequest _ :: rest => seen && cancelPrecedes seen rest
  | _, Effect.cancelRequest :: rest => cancelPrecedes true rest
  | seen, _ :: rest => cancelPrecedes seen rest

/-- `true` when the list contains no `performRequest`. -/
def noPerform : List Effect → Bool
  | [] => true
  | Effect.performRequest _ :: _ => false
  | _ :: rest => noPerform rest

/-!
## Lemmas about `compute_node_positions` -/

theorem computeTargetOnly_isSome :
    ∀ (nodes : List String) (tp acc : PosMap),
      (∀ n ∈ nodes, tp.containsKey n = true) →
      (computeTargetOnly nodes tp acc).isSome = true
  | [], _, _, _ => rfl
  | n :: rest, tp, acc, h => by
    have hn := h n (List.mem_cons_self n rest)
    simp only [PosMap.containsKey] at hn
    cases htp : tp.lookup n with
    | none => rw [htp] at hn; simp at hn
    | some c =>
      simp only [computeTargetOnly]
      rw [htp]
      exact computeTargetOnly_isSome rest tp _
        (fun m hm => h m (List.mem_cons_of_mem n hm))

theorem computeTargetOnly_lookup_not_mem :
    ∀ (nodes : List String) (tp acc actual : PosMap),
      computeTargetOnly nodes tp acc = some actual →
      ∀ k, k ∉ nodes → actual.lookup k = acc.lookup k
  | [], _, acc, actual, h, k, _ => by
    simp only [computeTargetOnly, Option.some.injEq] at h
    rw [← h]
  | n :: rest, tp, acc, actual, h, k, hk => by
    simp only [computeTargetOnly] at h
    cases htp : tp.lookup n with
    | none => rw [htp] at h; exact absurd h (by simp)
    | some c =>
      rw [htp] at h
      have hk1 : k ≠ n := fun he => hk (he ▸ List.mem_cons_self n rest)
      have hk2 : k ∉ rest := fun he => hk (List.mem_cons_of_mem n he)
      rw [computeTargetOnly_lookup_not_mem rest tp _ actual h k hk2]
      exact PosMap.lookup_insert_ne acc n k (c.1, c.2) (fun he => hk1 he.symm)

theorem computeTargetOnly_lookup_mem :
    ∀ (nodes : List String) (tp acc actual : PosMap),
      computeTargetOnly nodes tp acc = some actual →
      ∀ k, k ∈ nodes → actual.lookup k = tp.lookup k
  | [], _, _, _, _, k, hk => absurd hk (List.not_mem_nil k)
  | n :: rest, tp, acc, actual, h, k, hk => by
    simp only [computeTargetOnly] at h
    cases htp : tp.lookup n with
    | none => rw [htp] at h; exact absurd h (by simp)
    | some c =>
      rw [htp] at h
      by_cases hkr : k ∈ rest
      · exact computeTargetOnly_lookup_mem rest tp _ actual h k hkr
      · have hkn : k = n := by
          rcases List.mem_cons.mp hk with h1 | h1
          · exact h1
          · exact absurd h1 hkr
        subst hkn
        rw [computeTargetOnly_lookup_not_mem rest tp _ actual h k hkr,
          PosMap.lookup_insert_self, htp]

theorem foldl_interpolate_contains_preserved (f : ℚ) :
    ∀ (nodes : List String) (st : PosMap × PosMap × PosMap) (k : String),
      st.1.containsKey k = true →
      ((nodes.foldl (interpolateStep f) st).1).containsKey k = true
  | [], _, _, h => h
  | n :: rest, st, k, h => by
    simp only [List.foldl_cons]
    apply foldl_interpolate_contains_preserved f rest
    simp only [interpolateStep, PosMap.containsKey_insert]
    rw [h]
    simp

theorem foldl_interpolate_contains_mem (f : ℚ) :
    ∀ (nodes : List String) (st : PosMap × PosMap × PosMap) (k : String),
      k ∈ nodes → ((nodes.foldl (interpolateStep f) st).1).containsKey k = true
  | [], _, k, hk => absurd hk (List.not_mem_nil k)
  | n :: rest, st, k, hk => by
    simp only [List.foldl_cons]
    by_cases hkr : k ∈ rest
    · exact foldl_interpolate_contains_mem f rest _ k hkr
    · have hkn : k = n := by
        rcases List.mem_cons.mp hk with h1 | h1
        · exact h1
        · exact absurd h1 hkr
      subst hkn
      apply foldl_interpolate_contains_preserved
      simp only [interpolateStep, PosMap.containsKey_insert]
      simp

/-!
## Claim C1 — missing-node anchoring (code bug)

The claim (and the spec's §4.1/§8.3/§8.6) says: with `previous_positions`
present, a rendered node that is in `target_positions` but not in
`previous_positions` interpolates from the anchor `(0.0, 1.0)` toward its
own coordinate in `target_positions`, and a rendered node that is in
`previous_positions` but not in `target_positions` interpolates from its
last known previous coordinate toward the anchor `(0.0, 0.0)`.

The code's pre-pass (lines 74–77) contradicts this and its own inner-loop
defaults (lines 81–84): it overwrites `target_pos[n]` with `(0.0, 0.0)` for
every appearing node — so such a node never moves toward its actual target
— and overwrites `old_pos[n]` with `(1.0, 0.0)` for every vanished node —
so such a node's last known coordinate is discarded. -/

/-- Claim C1 (code bug): evaluating `compute_node_positions` at the spec's
own scenario shows the divergence. With graph node `n3`, target
`n3 ↦ (1, 0)`, previous positions present but lacking `n3`, and
`move_fraction = 2/3`, the code renders `n3` at `(0, 1/3)` — interpolating
toward the overwritten target `(0, 0)` — while the claim requires
`(2/3, 1/3)`, the interpolation from anchor `(0, 1)` toward `(1, 0)`.
Dually, a vanished node `m` with last known position `(1/2, 1/2)` is
rendered at `(1/2, 0)` — interpolating from the overwritten previous
position `(1, 0)` — while the claim requires `(1/4, 1/4)`. -/
theorem compute_node_positions_anchoring_bug :
    ((computeNodePositions ["n3"] [("n3", ((1 : ℚ), (0 : ℚ)))] (some []) (2 / 3)).map
        (fun r => r.1.lookup "n3") = some (some ((0 : ℚ), (1 / 3 : ℚ)))) ∧
    (((0 : ℚ), (1 / 3 : ℚ)) ≠ ((2 / 3 : ℚ), (1 / 3 : ℚ))) ∧
    ((computeNodePositions ["m"] []
        (some [("m", ((1 / 2 : ℚ), (1 / 2 : ℚ)))]) (1 / 2)).map
        (fun r => r.1.lookup "m") = some (some ((1 / 2 : ℚ), (0 : ℚ)))) ∧
    (((1 / 2 : ℚ), (0 : ℚ)) ≠ ((1 / 4 : ℚ), (1 / 4 : ℚ))) := by
  refine ⟨?_, ?_, ?_, ?_⟩
  · norm_num [computeNodePositions, prePassOld, prePassTarget, interpolateStep,
      PosMap.lookup, PosMap.insert, PosMap.containsKey, PosMap.keys, List.filter]
  · norm_num [Prod.ext_iff]
  · norm_num [computeNodePositions, prePassOld, prePassTarget, interpolateStep,
      PosMap.lookup, PosMap.insert, PosMap.containsKey, PosMap.keys, List.filter]
  · norm_num [Prod.ext_iff]

/-!
## Claim C2 — `compute_node_positions` does not mutate its inputs
(corrected) -/

/-- Claim C2 counterexample: `compute_node_positions` does mutate its
caller-supplied maps when `previous_positions` is present. With an empty
graph, `target_pos = \x7b"a": (5, 5)\x7d` and `old_pos = \x7b\x7d`, the
pre-pass overwrites `target_pos["a"]` with `(0, 0)`; with
`target_pos = \x7b\x7d` and `old_pos = \x7b"b": (3, 3)\x7d` it overwrites
`old_pos["b"]` with `(1, 0)`. -/
theorem compute_node_positions_mutates_inputs :
    ((computeNodePositions [] [("a", ((5 : ℚ), (5 : ℚ)))] (some []) (1 / 2)).map
        (fun r => r.2.1) = some [("a", ((0 : ℚ), (0 : ℚ)))]) ∧
    ([("a", ((0 : ℚ), (0 : ℚ)))] ≠ [("a", ((5 : ℚ), (5 : ℚ)))]) ∧
    ((computeNodePositions [] [] (some [("b", ((3 : ℚ), (3 : ℚ)))]) (1 / 2)).map
        (fun r => r.2.2) = some (some [("b", ((1 : ℚ), (0 : ℚ)))])) ∧
    (some [("b", ((1 : ℚ), (0 : ℚ)))] ≠ some [("b", ((3 : ℚ), (3 : ℚ)))]) := by
  refine ⟨?_, ?_, ?_, ?_⟩
  · norm_num [computeNodePositions, prePassOld, prePassTarget, interpolateStep,
      PosMap.lookup, PosMap.insert, PosMap.containsKey, PosMap.keys, List.filter]
  · norm_num [Prod.ext_iff]
  · norm_num [computeNodePositions, prePassOld, prePassTarget, interpolateStep,
      PosMap.lookup, PosMap.insert, PosMap.containsKey, PosMap.keys, List.filter]
  · norm_num [Prod.ext_iff]

/-- Claim C2 (amended): `compute_node_positions` leaves its caller-supplied
maps untouched when `previous_positions` is absent (`None`): whenever the
call returns, the `target_pos` reference holds exactly the map that was
passed in and `old_pos` is still `None`. (When `previous_positions` is
present the method mutates both maps in place — see the counterexample.) -/
theorem compute_node_positions_no_mutation_without_previous
    (nodes : List String) (tp : PosMap) (f : ℚ)
    (r : PosMap × PosMap × Option PosMap)
    (h : computeNodePositions nodes tp none f = some r) :
    r.2.1 = tp ∧ r.2.2 = none := by
  simp only [computeNodePositions] at h
  cases hc : computeTargetOnly nodes tp [] with
  | none => rw [hc] at h; exact absurd h (by simp)
  | some actual =>
    rw [hc] at h
    simp only [Option.map_some', Option.some.injEq] at h
    rw [← h]
    exact ⟨rfl, rfl⟩

/-- Claim C2 witness: the no-mutation theorem applied at a concrete
first-render call. -/
theorem compute_node_positions_no_mutation_without_previous_witness :
    ([("a", ((1 : ℚ), (2 : ℚ)))],
        ([("a", ((1 : ℚ), (2 : ℚ)))] : PosMap),
        (none : Option PosMap)).2.1 = [("a", ((1 : ℚ), (2 : ℚ)))] ∧
    ([("a", ((1 : ℚ), (2 : ℚ)))],
        ([("a", ((1 : ℚ), (2 : ℚ)))] : PosMap),
        (none : Option PosMap)).2.2 = none :=
  compute_node_positions_no_mutation_without_previous
    ["a"] [("a", ((1 : ℚ), (2 : ℚ)))] (1 / 2)
    ([("a", ((1 : ℚ), (2 : ℚ)))], [("a", ((1 : ℚ), (2 : ℚ)))], none) rfl

/-!
## Claim C3 — comparator stability (corrected)

`should_update_graph(P, P)` is claimed to return "unchanged" (`False`) for
every position map `P` including the empty map; but `if not old_pos:` is
Python truthiness, which holds for the empty dict as well as for `None`,
so the empty map compares as "changed". -/

/-- Claim C3 counterexample: on the empty map the comparator reports
"changed" (`true`), not "unchanged" (`false`) as the claim states, because
`not old_pos` is true for an empty dict. -/
theorem should_update_graph_empty_map_changed :
    should_update_graph (some ([] : PosMap)) [] = true ∧
    should_update_graph (some ([] : PosMap)) [] ≠ false := by
  exact ⟨rfl, by simp [should_update_graph]⟩

/-- Claim C3 (amended): the comparator reports "changed" on the empty map
(truthiness of `not old_pos`); for every nonempty map `P`,
`should_update_graph(P, P)` reports "unchanged" (`false`); and changing the
coordinate of exactly one node of a map (same keys, one value different,
the changed key not repeated earlier in the map) flips it to "changed"
(`true`). -/
theorem should_update_graph_stability :
    (should_update_graph (some ([] : PosMap)) [] = true) ∧
    (∀ P : PosMap, P ≠ [] → should_update_graph (some P) P = false) ∧
    (∀ (l₁ l₂ : PosMap) (k : String) (v₀ v : Coord),
      v ≠ v₀ → k ∉ l₁.map Prod.fst →
      should_update_graph (some (l₁ ++ (k, v₀) :: l₂)) (l₁ ++ (k, v) :: l₂) = true) := by
  refine ⟨rfl, ?_, ?_⟩
  · intro P hP
    have hie : P.isEmpty = false := by
      cases P with
      | nil => exact absurd rfl hP
      | cons a l => rfl
    simp only [should_update_graph, hie]
    rw [if_neg (by simp), if_neg (fun hne => hne rfl)]
    rw [List.any_eq_false]
    intro k hk
    simp [PosMap.containsKey_of_mem_keys P k hk]
  · intro l₁ l₂ k v₀ v hv hk
    have hie : (l₁ ++ (k, v₀) :: l₂).isEmpty = false := by cases l₁ <;> rfl
    simp only [should_update_graph, hie]
    rw [if_neg (by simp), if_neg (by simp [PosMap.keys])]
    refine List.any_eq_true.mpr ⟨k, ?_, ?_⟩
    · simp [PosMap.keys]
    · have hold : PosMap.lookup (l₁ ++ (k, v₀) :: l₂) k = some v₀ :=
        PosMap.lookup_append_cons l₁ l₂ k v₀ hk
      have hnew : PosMap.lookup (l₁ ++ (k, v) :: l₂) k = some v :=
        PosMap.lookup_append_cons l₁ l₂ k v hk
      have hne : v₀ ≠ v := fun he => hv he.symm
      simp [PosMap.containsKey, hold, hnew, hne]

/-- Claim C3 witness: the amended stability statement applied to the
concrete one-node map `\x7b"a": (0, 0)\x7d` and its single-coordinate change
to `(1, 1)`. -/
theorem should_update_graph_stability_witness :
    should_update_graph (some [("a", ((0 : ℚ), (0 : ℚ)))])
        [("a", ((0 : ℚ), (0 : ℚ)))] = false ∧
    should_update_graph (some ([] ++ ("a", ((0 : ℚ), (0 : ℚ))) :: []))
        ([] ++ ("a", ((1 : ℚ), (1 : ℚ))) :: []) = true :=
  ⟨should_update_graph_stability.2.1 [("a", ((0 : ℚ), (0 : ℚ)))] (by simp),
   should_update_graph_stability.2.2 [] [] "a" ((0 : ℚ), (0 : ℚ)) ((1 : ℚ), (1 : ℚ))
     (by norm_num [Prod.ext_iff]) (by simp)⟩

/-!
## Claim C4 — first-render identity (corrected)

When `previous_positions` is `None` the claim holds for every graph node
that has an entry in `target_positions`, but the branch performs raw dict
indexing `target_pos[n]`, so for "every target_positions map" as claimed it
is false: a graph node missing from the map raises `KeyError` and the call
produces no output at all. -/

/-- Claim C4 counterexample: with graph node set `\x7b"a"\x7d` and an empty
`target_positions`, the first-render branch raises `KeyError` (embedded as
`none`): there is no output, so the output does not equal
`target_positions` on node `"a"`. -/
theorem compute_node_positions_first_render_missing_node :
    computeNodePositions ["a"] [] none (1 / 2) = none ∧
    (computeNodePositions ["a"] [] none (1 / 2)).isSome = false :=
  ⟨rfl, rfl⟩

/-- Claim C4 (amended): for every nonempty graph node set whose nodes all
have an entry in `target_positions`, when `previous_positions` is absent
(`None`) the output of `compute_node_positions` equals `target_positions`
exactly on every node of the graph, with no interpolation applied (and the
input map is returned unchanged). -/
theorem compute_node_positions_first_render_identity (nodes : List String)
    (tp : PosMap) (f : ℚ) (hne : nodes ≠ [])
    (hcov : ∀ n ∈ nodes, tp.containsKey n = true) :
    ∃ actual, computeNodePositions nodes tp none f = some (actual, tp, none) ∧
      ∀ n ∈ nodes, actual.lookup n = tp.lookup n := by
  have h1 := computeTargetOnly_isSome nodes tp [] hcov
  cases hc : computeTargetOnly nodes tp [] with
  | none => rw [hc] at h1; simp at h1
  | some actual =>
    refine ⟨actual, ?_, ?_⟩
    · simp only [computeNodePositions, hc, Option.map_some']
    · exact fun n hn => computeTargetOnly_lookup_mem nodes tp [] actual hc n hn

/-- Claim C4 witness: the first-render identity applied at the concrete
graph `\x7b"a"\x7d` with `target_positions = \x7b"a": (1, 2)\x7d`. -/
theorem compute_node_positions_first_render_identity_witness :
    ∃ actual, computeNodePositions ["a"] [("a", ((1 : ℚ), (2 : ℚ)))] none (1 / 3)
        = some (actual, [("a", ((1 : ℚ), (2 : ℚ)))], none) ∧
      ∀ n ∈ ["a"], actual.lookup n = PosMap.lookup [("a", ((1 : ℚ), (2 : ℚ)))] n :=
  compute_node_positions_first_render_identity ["a"] [("a", ((1 : ℚ), (2 : ℚ)))] (1 / 3)
    (by simp)
    (by intro n hn; simp only [List.mem_singleton] at hn; subst hn; rfl)

/-!
## Claim C6 — totality of `compute_node_positions` (corrected)

The claim says the function is total over all of its public inputs, "in
particular ... when previous_positions is absent and some graph node is
missing from target_positions". That particular case is exactly where the
code raises: the `old_pos is None` branch has no defaulting. With
`previous_positions` present the function is total: the loop defaults every
missing entry to an anchor before interpolating. -/

/-- Claim C6 counterexample: with `previous_positions` absent and graph
node `"b"` missing from `target_positions`, the call raises `KeyError`
(embedded as `none`) instead of producing a coordinate for `"b"`. -/
theorem compute_node_positions_not_total_without_previous :
    computeNodePositions ["b"] [] none (1 / 3) = none ∧
    (computeNodePositions ["b"] [] none (1 / 3)).isSome = false :=
  ⟨rfl, rfl⟩

/-- Claim C6 (amended): whenever `previous_positions` is present,
`compute_node_positions` is total — for every graph node set, every
`target_positions` and every move fraction it returns successfully and
produces a coordinate for every node of the graph, nodes missing from
either map being defaulted to a boundary anchor. (When `previous_positions`
is absent it is total only on graphs whose nodes all appear in
`target_positions` — see the counterexample.) -/
theorem compute_node_positions_total_with_previous (nodes : List String)
    (tp op : PosMap) (f : ℚ) :
    ∃ actual tp1 op1,
      computeNodePositions nodes tp (some op) f = some (actual, tp1, some op1) ∧
      ∀ n ∈ nodes, (actual.lookup n).isSome = true := by
  refine ⟨_, _, _, rfl, ?_⟩
  exact fun n hn => foldl_interpolate_contains_mem f nodes _ n hn

/-!
## Claim C7 — timeout reschedules with the full interval (confirmed) -/

/-- Claim C7: when the fetch-timeout timer elapses,
`on_fetch_data_request_timeout` cancels the in-flight request
unconditionally (in every state, `cancelRequest` is emitted first) and
re-arms the fetch-delay timer with the full `REFRESH_INTERVAL_MS = 1000` ms
delay — not an immediate `0` delay — together with a fresh
`TIMEOUT_INTERVAL_MS` timeout timer. -/
theorem timeout_reschedules_full_interval (s : TrustGraphPageState) :
    (on_fetch_data_request_timeout s).2
      = [Effect.cancelRequest, Effect.startFetchTimer REFRESH_INTERVAL_MS,
         Effect.startTimeoutTimer TIMEOUT_INTERVAL_MS] ∧
    REFRESH_INTERVAL_MS = 1000 ∧ 0 < REFRESH_INTERVAL_MS ∧
    (on_fetch_data_request_timeout s).1.fetch_data_timer = some REFRESH_INTERVAL_MS ∧
    (on_fetch_data_request_timeout s).1.fetch_data_timeout_timer
      = some TIMEOUT_INTERVAL_MS ∧
    (on_fetch_data_request_timeout s).1.requestsInFlight = s.requestsInFlight - 1 :=
  ⟨rfl, rfl, by decide, rfl, rfl, rfl⟩

/-!
## Claim C8 — `stop_fetch_data_request` (corrected)

The claim says the stop operation cancels both scheduling timers, stops any
running animation timer, *and cancels any in-flight fetch request*. The
code stops the three timers but never touches `graph_request_mgr`: no
`cancel_request` is issued, and an in-flight request stays in flight. -/

/-- Claim C8 counterexample: in a state with one request in flight,
`stop_fetch_data_request` emits no `cancelRequest` and leaves the request
in flight, contradicting the claim that it "cancels any in-flight fetch
request". -/
theorem stop_does_not_cancel_request :
    (stop_fetch_data_request { initState with requestsInFlight := 1 }).1.requestsInFlight
        = 1 ∧
    Effect.cancelRequest ∉
      (stop_fetch_data_request { initState with requestsInFlight := 1 }).2 :=
  ⟨rfl, by decide⟩

/-- Claim C8 (amended): the stop operation invoked on widget hide cancels
the fetch-delay timer and the fetch-timeout timer, stops the animation
timer when one exists, and is safe to call when no timer or request is
active (with no animation timer it just stops the two fetch timers) — but
it does **not** cancel an in-flight fetch request: the in-flight count is
untouched and no `cancelRequest` effect is emitted. -/
theorem stop_cancels_timers_safely (s : TrustGraphPageState) :
    Effect.stopFetchTimer ∈ (stop_fetch_data_request s).2 ∧
    Effect.stopTimeoutTimer ∈ (stop_fetch_data_request s).2 ∧
    (s.animation_timer.isSome = true →
      Effect.stopAnimationTimer ∈ (stop_fetch_data_request s).2) ∧
    (s.animation_timer = none →
      (stop_fetch_data_request s).2 = [Effect.stopFetchTimer, Effect.stopTimeoutTimer]) ∧
    Effect.cancelRequest ∉ (stop_fetch_data_request s).2 ∧
    (stop_fetch_data_request s).1.fetch_data_timer = none ∧
    (stop_fetch_data_request s).1.fetch_data_timeout_timer = none ∧
    (stop_fetch_data_request s).1.requestsInFlight = s.requestsInFlight := by
  refine ⟨?_, ?_, ?_, ?_, ?_, rfl, rfl, rfl⟩
  · simp [stop_fetch_data_request]
  · simp [stop_fetch_data_request]
  · intro h
    simp [stop_fetch_data_request, h]
  · intro h
    simp [stop_fetch_data_request, h]
  · simp only [stop_fetch_data_request]
    split <;> simp

/-!
## Claim C9 — a null payload is a no-op (confirmed) -/

/-- Claim C9: when a fetch completes with a null payload,
`on_received_data` returns without changing any state — the entire page
state (graph snapshot, position maps, node id, edges, animation and poll
state) is exactly as before — and emits no effect (no error is surfaced). -/
theorem on_received_data_none_noop (s : TrustGraphPageState) :
    on_received_data none s = (s, []) := rfl

/-!
## Claim C10 — at most one request in flight (confirmed) -/

theorem cancelPrecedes_of_noPerform :
    ∀ (l : List Effect) (b : Bool), noPerform l = true → cancelPrecedes b l = true
  | [], _, _ => rfl
  | e :: rest, b, h => by
    cases e with
    | performRequest ep => exact Bool.noConfusion h
    | cancelRequest => exact cancelPrecedes_of_noPerform rest true h
    | startFetchTimer d => exact cancelPrecedes_of_noPerform rest b h
    | startTimeoutTimer d => exact cancelPrecedes_of_noPerform rest b h
    | stopFetchTimer => exact cancelPrecedes_of_noPerform rest b h
    | stopTimeoutTimer => exact cancelPrecedes_of_noPerform rest b h
    | startAnimationTimer i => exact cancelPrecedes_of_noPerform rest b h
    | stopAnimationTimer => exact cancelPrecedes_of_noPerform rest b h
    | renderCanvas fc pr => exact cancelPrecedes_of_noPerform rest b h
    | setProgressBarHidden hd => exact cancelPrecedes_of_noPerform rest b h
    | setProgressBarValue w => exact cancelPrecedes_of_noPerform rest b h
    | setStatusText a c => exact cancelPrecedes_of_noPerform rest b h

theorem update_canvas_effects_noPerform (graph : Option (List String × List Edge))
    (node_id : Option String) (pos old_pos : Option PosMap)
    (edge_list : Option (List Edge)) (fc : ℤ) (mf : ℕ)
    (r : List Effect × Option PosMap × Option PosMap)
    (h : update_canvas graph node_id pos old_pos edge_list fc mf = some r) :
    noPerform r.1 = true := by
  simp only [update_canvas] at h
  split at h
  · simp only [Option.some.injEq] at h
    rw [← h]
    rfl
  · split at h
    · exact absurd h (by simp)
    · split at h
      · exact absurd h (by simp)
      · split at h
        · exact absurd h (by simp)
        · split at h
          · exact absurd h (by simp)
          · split at h
            · exact absurd h (by simp)
            · simp only [Option.some.injEq] at h
              rw [← h]
              rfl

theorem update_graph_effects_ok (s s' : TrustGraphPageState) (effs : List Effect)
    (h : update_graph s = some (s', effs)) :
    noPerform effs = true ∧ s'.requestsInFlight = s.requestsInFlight := by
  simp only [update_graph] at h
  split at h
  · rw [Option.map_eq_some'] at h
    obtain ⟨r, hr, hmk⟩ := h
    injection hmk with h1 h2
    subst h1
    subst h2
    exact ⟨update_canvas_effects_noPerform _ _ _ _ _ _ _ r hr, rfl⟩
  · simp only [Option.some.injEq] at h
    injection h with h1 h2
    subst h1
    subst h2
    exact ⟨rfl, rfl⟩

theorem on_received_data_effects_ok (d : Option Payload) (s : TrustGraphPageState) :
    noPerform (on_received_data d s).2 = true ∧
    (on_received_data d s).1.requestsInFlight = s.requestsInFlight := by
  cases d with
  | none => exact ⟨rfl, rfl⟩
  | some p =>
    simp only [on_received_data]
    constructor
    · split
      · simp only [update_gui_labels]
        split <;> rfl
      · simp only [update_gui_labels]
        split <;> rfl
    · split <;> rfl

theorem pairFst {α β : Type} {p : α × β} {a : α} {b : β}
    (h : some p = some (a, b)) : a = p.1 :=
  (congrArg Prod.fst (Option.some.inj h)).symm

theorem pairSnd {α β : Type} {p : α × β} {a : α} {b : β}
    (h : some p = some (a, b)) : b = p.2 :=
  (congrArg Prod.snd (Option.some.inj h)).symm

theorem step_preserves_at_most_one (e : PageEvent) (s s' : TrustGraphPageState)
    (effs : List Effect) (h : step e s = some (s', effs))
    (hs : s.requestsInFlight ≤ 1) : s'.requestsInFlight ≤ 1 := by
  cases e with
  | showEvent =>
    rw [pairFst h]
    exact hs
  | hideEvent =>
    rw [pairFst h]
    exact hs
  | fetchTimerFires now =>
    rw [pairFst h]
    simp only [fetch_graph_data]
    split
    · simp only
      omega
    · exact hs
  | timeoutTimerFires =>
    rw [pairFst h]
    simp only [on_fetch_data_request_timeout, schedule_fetch_data_timer]
    omega
  | animationTick =>
    have h1 := (update_graph_effects_ok s s' effs h).2
    omega
  | dataReceived d =>
    rw [pairFst h]
    have h1 := (on_received_data_effects_ok d
      { s with requestsInFlight := s.requestsInFlight - 1 }).2
    rw [h1]
    simp only
    omega

/-- Claim C10: in every reachable state of the page's event loop, at most
one fetch request is in flight; and in the effect trace of every single
transition, every `performRequest` is preceded by a `cancelRequest` — a new
fetch always cancels the outstanding request before starting. -/
theorem at_most_one_request_in_flight :
    (∀ s, Reachable s → s.requestsInFlight ≤ 1) ∧
    (∀ (e : PageEvent) (s s' : TrustGraphPageState) (effs : List Effect),
      step e s = some (s', effs) → cancelPrecedes false effs = true) := by
  constructor
  · intro s h
    induction h with
    | init => decide
    | next hr hstep ih => exact step_preserves_at_most_one _ _ _ _ hstep ih
  · intro e s s' effs h
    cases e with
    | showEvent =>
      rw [pairSnd h]
      rfl
    | hideEvent =>
      rw [pairSnd h]
      simp only [stop_fetch_data_request]
      split <;> rfl
    | fetchTimerFires now =>
      rw [pairSnd h]
      simp only [fetch_graph_data]
      split <;> rfl
    | timeoutTimerFires =>
      rw [pairSnd h]
      rfl
    | animationTick =>
      exact cancelPrecedes_of_noPerform effs false
        (update_graph_effects_ok s s' effs h).1
    | dataReceived d =>
      rw [pairSnd h]
      exact cancelPrecedes_of_noPerform _ false
        (on_received_data_effects_ok d
          { s with requestsInFlight := s.requestsInFlight - 1 }).1

/-!
## Claim C5 — the animation plays exactly two frames then reschedules

With `MAX_FRAMES = 3`, arming the animation sets `animation_frame = 3`;
each `update_graph` tick decrements it, renders while it is nonzero
(`frame_count = 2` at progress `1 - (2-1)/3 = 2/3`, then `frame_count = 1`
at progress `1`), and on the tick reaching `0` renders nothing, stops the
animation timer and calls `schedule_fetch_data_timer()`. -/

theorem edgeCoords_isSome (m : PosMap) :
    ∀ (es : List Edge),
      (∀ e ∈ es, m.containsKey e.1 = true ∧ m.containsKey e.2 = true) →
      (edgeCoords m es).isSome = true
  | [], _ => rfl
  | e :: rest, h => by
    obtain ⟨h1, h2⟩ := h e (List.mem_cons_self e rest)
    simp only [PosMap.containsKey] at h1 h2
    obtain ⟨c1, hc1⟩ := Option.isSome_iff_exists.mp h1
    obtain ⟨c2, hc2⟩ := Option.isSome_iff_exists.mp h2
    have hrec := edgeCoords_isSome m rest
      (fun e1 he1 => h e1 (List.mem_cons_of_mem e he1))
    obtain ⟨cs, hcs⟩ := Option.isSome_iff_exists.mp hrec
    simp only [edgeCoords]
    rw [hc1, hc2, hcs]
    rfl

theorem draw_graph_isSome (r : String) (m : PosMap) (es : List Edge)
    (he : ∀ e ∈ es, m.containsKey e.1 = true ∧ m.containsKey e.2 = true)
    (hr : m.containsKey r = true) :
    (draw_graph (some r) m es).isSome = true := by
  obtain ⟨segs, hsegs⟩ := Option.isSome_iff_exists.mp (edgeCoords_isSome m es he)
  simp only [PosMap.containsKey] at hr
  obtain ⟨c, hc⟩ := Option.isSome_iff_exists.mp hr
  simp only [draw_graph]
  rw [hsegs, hc]
  rfl

theorem draw_graph_after_interpolate (f : ℚ) (st : PosMap × PosMap × PosMap)
    (nodes : List String) (es : List Edge) (nid : String)
    (hnid : nid ∈ nodes) (hes : ∀ e ∈ es, e.1 ∈ nodes ∧ e.2 ∈ nodes) :
    ∃ v, draw_graph (some nid) ((nodes.foldl (interpolateStep f) st).1) es
      = some v := by
  apply Option.isSome_iff_exists.mp
  apply draw_graph_isSome
  · exact fun e he =>
      ⟨foldl_interpolate_contains_mem f nodes st e.1 (hes e he).1,
       foldl_interpolate_contains_mem f nodes st e.2 (hes e he).2⟩
  · exact foldl_interpolate_contains_mem f nodes st nid hnid

theorem update_canvas_renders (nodes : List String) (ges es : List Edge)
    (nid : String) (p op : PosMap) (fc : ℤ) (mf : ℕ)
    (hne : nodes ≠ []) (hf : fc ≠ 0) (hnid : nid ∈ nodes)
    (hes : ∀ e ∈ es, e.1 ∈ nodes ∧ e.2 ∈ nodes) :
    update_canvas (some (nodes, ges)) (some nid) (some p) (some op) (some es) fc mf
      = some ([Effect.renderCanvas fc (1 - ((fc : ℚ) - 1) / (mf : ℚ))],
          some (nodes.foldl (interpolateStep (1 - ((fc : ℚ) - 1) / (mf : ℚ)))
            ([], prePassTarget p op, prePassOld p op)).2.1,
          some (nodes.foldl (interpolateStep (1 - ((fc : ℚ) - 1) / (mf : ℚ)))
            ([], prePassTarget p op, prePassOld p op)).2.2) := by
  have hie : nodes.isEmpty = false := by
    cases nodes with
    | nil => exact absurd rfl hne
    | cons a l => rfl
  obtain ⟨v, hv⟩ := draw_graph_after_interpolate
    (1 - ((fc : ℚ) - 1) / (mf : ℚ)) ([], prePassTarget p op, prePassOld p op)
    nodes es nid hnid hes
  simp only [update_canvas, computeNodePositions]
  rw [if_neg (by simp [hie, hf])]
  rw [hv]

/-- The state of an animating page: a graph snapshot and both position
generations present, the animation timer running, `animation_frame = k`. -/
def animState (ft tt : Option ℕ) (lu : ℚ) (rif : ℕ) (nodes : List String)
    (ges es : List Edge) (p op : PosMap) (nid : String) (k : ℤ) :
    TrustGraphPageState where
  fetch_data_timer := ft
  fetch_data_timeout_timer := tt
  fetch_data_last_update := lu
  requestsInFlight := rif
  graph := some (nodes, ges)
  edges := some es
  pos := some p
  old_pos := some op
  node_id := some nid
  animation_timer := some true
  animation_frame := k

theorem update_graph_render_tick (ft tt : Option ℕ) (lu : ℚ) (rif : ℕ)
    (nodes : List String) (ges es : List Edge) (p op : PosMap) (nid : String)
    (k : ℤ) (hne : nodes ≠ []) (hk : k - 1 ≠ 0) (hnid : nid ∈ nodes)
    (hes : ∀ e ∈ es, e.1 ∈ nodes ∧ e.2 ∈ nodes) :
    ∃ p1 op1, update_graph (animState ft tt lu rif nodes ges es p op nid k)
      = some (animState ft tt lu rif nodes ges es p1 op1 nid (k - 1),
          [Effect.renderCanvas (k - 1)
            (1 - (((k - 1 : ℤ) : ℚ) - 1) / (MAX_FRAMES : ℚ))]) := by
  have hc :=
    update_canvas_renders nodes ges es nid p op (k - 1) MAX_FRAMES hne hk hnid hes
  refine ⟨(nodes.foldl (interpolateStep (1 - (((k - 1 : ℤ) : ℚ) - 1) / (MAX_FRAMES : ℚ)))
      ([], prePassTarget p op, prePassOld p op)).2.1,
    (nodes.foldl (interpolateStep (1 - (((k - 1 : ℤ) : ℚ) - 1) / (MAX_FRAMES : ℚ)))
      ([], prePassTarget p op, prePassOld p op)).2.2, ?_⟩
  simp only [update_graph, animState]
  rw [if_pos hk, hc]
  simp only [Option.map_some']

theorem update_graph_final_tick (ft tt : Option ℕ) (lu : ℚ) (rif : ℕ)
    (nodes : List String) (ges es : List Edge) (p op : PosMap) (nid : String) :
    update_graph (animState ft tt lu rif nodes ges es p op nid 1)
      = some (⟨some REFRESH_INTERVAL_MS, some TIMEOUT_INTERVAL_MS, lu, rif,
          some (nodes, ges), some es, some p, some op, some nid, some false, 0⟩,
        [Effect.stopAnimationTimer, Effect.startFetchTimer REFRESH_INTERVAL_MS,
         Effect.startTimeoutTimer TIMEOUT_INTERVAL_MS]) := by
  norm_num [update_graph, animState, schedule_fetch_data_timer]

theorem runTicks_cons (n : ℕ) (s s1 : TrustGraphPageState) (effs : List Effect)
    (h : update_graph s = some (s1, effs)) (s2 : TrustGraphPageState)
    (rest : List (List Effect)) (h2 : runTicks n s1 = some (s2, rest)) :
    runTicks (n + 1) s = some (s2, effs :: rest) := by
  simp only [runTicks, h, h2]

/-- Claim C5: after a changed snapshot arms the animation with
`MAX_FRAMES = 3`, iterating the tick handler renders exactly two frames —
at `frame_count = 2` with progress `1 - (2-1)/3 = 2/3`, then at
`frame_count = 1` with progress `1` — and on the tick that brings
`frame_count` to `0` it renders nothing, stops the animation timer, and
reschedules the poll timer (full `REFRESH_INTERVAL_MS` delay plus a fresh
timeout timer). Holds for every armed state whose graph is nonempty, whose
root node is a graph node, and whose edge endpoints are graph nodes. -/
theorem animation_runs_two_frames_then_reschedules (ft tt : Option ℕ)
    (lu : ℚ) (rif : ℕ) (nodes : List String) (ges es : List Edge)
    (p op : PosMap) (nid : String) (hne : nodes ≠ []) (hnid : nid ∈ nodes)
    (hes : ∀ e ∈ es, e.1 ∈ nodes ∧ e.2 ∈ nodes) :
    ∃ sf : TrustGraphPageState,
      runTicks 3 (animState ft tt lu rif nodes ges es p op nid (MAX_FRAMES : ℤ))
        = some (sf,
          [[Effect.renderCanvas 2 (2 / 3)],
           [Effect.renderCanvas 1 1],
           [Effect.stopAnimationTimer, Effect.startFetchTimer REFRESH_INTERVAL_MS,
            Effect.startTimeoutTimer TIMEOUT_INTERVAL_MS]]) ∧
      sf.animation_frame = 0 ∧ sf.animation_timer = some false ∧
      sf.fetch_data_timer = some REFRESH_INTERVAL_MS ∧
      sf.fetch_data_timeout_timer = some TIMEOUT_INTERVAL_MS := by
  obtain ⟨p1, op1, h1⟩ := update_graph_render_tick ft tt lu rif nodes ges es
    p op nid 3 hne (by norm_num) hnid hes
  norm_num [MAX_FRAMES] at h1
  obtain ⟨p2, op2, h2⟩ := update_graph_render_tick ft tt lu rif nodes ges es
    p1 op1 nid 2 hne (by norm_num) hnid hes
  norm_num [MAX_FRAMES] at h2
  have h3 := update_graph_final_tick ft tt lu rif nodes ges es p2 op2 nid
  refine ⟨⟨some REFRESH_INTERVAL_MS, some TIMEOUT_INTERVAL_MS, lu, rif,
    some (nodes, ges), some es, some p2, some op2, some nid, some false, 0⟩,
    ?_, rfl, rfl, rfl, rfl⟩
  have hM : (MAX_FRAMES : ℤ) = 3 := rfl
  rw [hM]
  exact runTicks_cons 2 _ _ _ h1 _ _
    (runTicks_cons 1 _ _ _ h2 _ _
      (runTicks_cons 0 _ _ _ h3 _ _ rfl))

/-- Claim C5 witness: the two-frame trace at the spec's end-to-end
scenario — snapshot A for `n1`, `n2`; snapshot B adding `n3` — with
`MAX_FRAMES = 3`. -/
theorem animation_runs_two_frames_then_reschedules_witness :
    ∃ sf : TrustGraphPageState,
      runTicks 3 (animState none none 0 0 ["n1", "n2", "n3"]
          [("n1", "n2"), ("n1", "n3")] [("n1", "n2"), ("n1", "n3")]
          [("n1", ((0 : ℚ), (0 : ℚ))), ("n2", ((1 / 2 : ℚ), (1 / 2 : ℚ))),
           ("n3", ((1 : ℚ), (0 : ℚ)))]
          [("n1", ((0 : ℚ), (0 : ℚ))), ("n2", ((1 : ℚ), (1 : ℚ)))]
          "n1" (MAX_FRAMES : ℤ))
        = some (sf,
          [[Effect.renderCanvas 2 (2 / 3)],
           [Effect.renderCanvas 1 1],
           [Effect.stopAnimationTimer, Effect.startFetchTimer REFRESH_INTERVAL_MS,
            Effect.startTimeoutTimer TIMEOUT_INTERVAL_MS]]) ∧
      sf.animation_frame = 0 ∧ sf.animation_timer = some false ∧
      sf.fetch_data_timer = some REFRESH_INTERVAL_MS ∧
      sf.fetch_data_timeout_timer = some TIMEOUT_INTERVAL_MS :=
  animation_runs_two_frames_then_reschedules none none 0 0
    ["n1", "n2", "n3"] [("n1", "n2"), ("n1", "n3")] [("n1", "n2"), ("n1", "n3")]
    [("n1", ((0 : ℚ), (0 : ℚ))), ("n2", ((1 / 2 : ℚ), (1 / 2 : ℚ))),
     ("n3", ((1 : ℚ), (0 : ℚ)))]
    [("n1", ((0 : ℚ), (0 : ℚ))), ("n2", ((1 : ℚ), (1 : ℚ)))] "n1"
    (by decide) (by decide) (by decide)
